import Mathlib

/-!
Verification development for the vaporlight protocol code
(`vaporware/language_bindings/python/llvp.py` and
`vaporware/emulator/emulator.py`).

Bytes are modelled as `Nat` (the Python code moves between one-character
strings and integers via `ord`/`chr`; the embedding works uniformly with
the numeric byte values).  Generators that receive bytes via `yield` are
modelled as functions over the finite list of bytes fed to them; a
generator that raises an exception is modelled by a dead state (or an
error value), since a Python generator that raises is finished and
yields nothing afterwards.  End of the byte list while the generator is
waiting for more input corresponds to a suspended generator: no further
commands, and no error.
-/

/-! ## Net protocol commands (llvp.py, NetProtocol and the command classes) -/

/-- Commands of the net-level protocol, as decoded by `NetProtocol.read`. -/
inductive NetCommand
  | strobe
  | setLed (led : Nat) (color : Nat × Nat × Nat × Nat)
  | authenticate (token : List Nat)
  deriving DecidableEq, Repr

/-- The `ProtocolError` raised by `NetProtocol.read` on an unknown opcode. -/
inductive NetError
  | protocolError
  deriving DecidableEq, Repr

/-- Model of `SetLedCommand.to_str`: opcode `0x01`, two big-endian led id
bytes (`led >> 8`, `led & 255`), then the four 8-bit color components. -/
def setLedToStr (led : Nat) (color : Nat × Nat × Nat × Nat) : List Nat :=
  [0x01, led >>> 8, led &&& 255, color.1, color.2.1, color.2.2.1, color.2.2.2]

/-- Model of `HighResSetLedCommand.to_str`: opcode `0x03`, big-endian led id,
then the four color components as big-endian 16-bit pairs. -/
def highResSetLedToStr (led : Nat) (color : Nat × Nat × Nat × Nat) : List Nat :=
  [0x03, led >>> 8, led &&& 255,
   color.1 >>> 8, color.1 &&& 255,
   color.2.1 >>> 8, color.2.1 &&& 255,
   color.2.2.1 >>> 8, color.2.2.1 &&& 255,
   color.2.2.2 >>> 8, color.2.2.2 &&& 255]

/-- Model of `StrobeCommand.to_str`: the single opcode byte `0xff`. -/
def strobeToStr : List Nat := [0xff]

/-- Model of `AuthenticateCommand.__init__`'s `token.ljust(16, "\x00")`:
a token shorter than 16 bytes is padded on the right with zero bytes; a
token of 16 bytes or more is left unchanged. -/
def authInitToken (token : List Nat) : List Nat :=
  token ++ List.replicate (16 - token.length) 0

/-- Model of `AuthenticateCommand.to_str`: opcode `0x02` followed by the
(possibly padded) token stored by the constructor. -/
def authToStr (token : List Nat) : List Nat :=
  0x02 :: authInitToken token

/-- Model of the loop body of `BusSetChannelsCommand.to_str`: the source
iterates over `[mod_id] + channels` and only touches bytes whose value is
in `UNESCAPE.values()` (`0x54` or `0x55`); for those it calls
`res.append(...)` on a `str`, which raises `AttributeError` (modelled as
`none`).  All other bytes are skipped without being written. -/
def busSetChannelsLoop : List Nat → Option (List Nat)
  | [] => some []
  | v :: rest =>
      if v = 0x54 ∨ v = 0x55 then none
      else busSetChannelsLoop rest

/-- Model of `BusSetChannelsCommand.to_str`: starts from the single byte
`chr(START_OF_CMD_MARKER)` and runs the (broken) loop; `none` models the
`AttributeError` raised by `res.append` on a string. -/
def busSetChannelsToStr (mod_id : Nat) (channels : List Nat) : Option (List Nat) :=
  (busSetChannelsLoop (mod_id :: channels)).map (fun extra => 0x55 :: extra)

/-- Model of `BusStrobeCommand.to_str`: the start marker then the strobe
pseudo-address. -/
def busStrobeToStr : List Nat := [0x55, 0xfe]

/-- Model of the `NetProtocol.read` generator over a finite byte list.
It dispatches on the opcode byte: `0x01` reads a 6-byte SetLed payload,
`0xff` is a strobe, `0x02` reads a 16-byte token (which the
`AuthenticateCommand` constructor then left-justifies); any other opcode
raises `ProtocolError`.  A command is delivered by the `send` carrying the
last byte of its payload, so a stream that ends exactly after a payload
still yields that command; a stream that ends mid-payload yields nothing
further and no error (the generator is merely suspended). -/
def netRead : List Nat → List NetCommand × Option NetError
  | [] => ([], none)
  | op :: rest =>
      if op = 0x01 then
        match rest with
        | hi :: lo :: r :: g :: b :: a :: rest2 =>
            let res := netRead rest2
            (.setLed ((hi <<< 8) ||| lo) (r, g, b, a) :: res.1, res.2)
        | _ => ([], none)
      else if op = 0xff then
        let res := netRead rest
        (.strobe :: res.1, res.2)
      else if op = 0x02 then
        match rest with
        | t1 :: t2 :: t3 :: t4 :: t5 :: t6 :: t7 :: t8 ::
          t9 :: t10 :: t11 :: t12 :: t13 :: t14 :: t15 :: t16 :: rest2 =>
            let res := netRead rest2
            (.authenticate (authInitToken
                [t1, t2, t3, t4, t5, t6, t7, t8,
                 t9, t10, t11, t12, t13, t14, t15, t16]) :: res.1, res.2)
        | _ => ([], none)
      else ([], some .protocolError)

/-! ## Bus protocol (llvp.py, BusProtocol) -/

/-- Model of `BusProtocol.UNESCAPE`: the escape-code table `0x00 ↦ 0x54`,
`0x01 ↦ 0x55`; any other key raises `KeyError` (modelled as `none`). -/
def UNESCAPE (c : Nat) : Option Nat :=
  if c = 0x00 then some 0x54 else if c = 0x01 then some 0x55 else none

/-- Model of the unescape loop in `BusProtocol.read` (the `for val in
values` loop): an `ESCAPE_BYTE` sets the `escaped` flag (even if it was
already set); a byte seen with the flag set is looked up in `UNESCAPE`
(`none` models the `KeyError` on an invalid escape code); any other byte
passes through.  A trailing escape flag is silently dropped when the list
ends. -/
def unescapeRun : List Nat → Bool → Option (List Nat)
  | [], _ => some []
  | v :: rest, escaped =>
      if v = 0x54 then unescapeRun rest true
      else if escaped then
        match UNESCAPE v with
        | none => none
        | some u => (unescapeRun rest false).map (fun l => u :: l)
      else (unescapeRun rest false).map (fun l => v :: l)

/-- Result of the batch-reading loop of `BusProtocol.read`. -/
inductive BatchResult
  | ok (raw rest : List Nat)
  | exhausted
  | syncErr
  deriving DecidableEq, Repr

/-- Model of the `while continue_reading:` loop of `BusProtocol.read`
(lines 115-124): read `toRead` raw bytes as a batch, raise
`UnexpectedSyncError` if a literal `START_OF_CMD_MARKER` is among them,
count the bytes of the batch equal to `ESCAPE_BYTE`, and repeat with that
count until a batch contributes zero escapes.  `ok raw rest` returns the
full raw (still escaped) run and the unread remainder of the stream;
`exhausted` models a stream that ends while the loop still wants bytes. -/
def readBatches (stream : List Nat) (toRead : Nat) (acc : List Nat) : BatchResult :=
  if _h0 : toRead = 0 then .ok acc stream
  else if _h1 : stream.length < toRead then .exhausted
  else if 0x55 ∈ stream.take toRead then .syncErr
  else readBatches (stream.drop toRead) ((stream.take toRead).count 0x54)
    (acc ++ stream.take toRead)
termination_by stream.length
decreasing_by
  simp only [List.length_drop]
  omega

/-- Commands produced by the `BusProtocol.read` generator. -/
inductive BusCommand
  | strobe
  | setChannels (addr : Nat) (values : List Nat)
  deriving DecidableEq, Repr

/-- The ways `BusProtocol.read` can die: `UnexpectedSyncError` (raised
explicitly), `KeyError` (an `UNESCAPE` lookup with a bad code), and
`IndexError` (a `module_lens` lookup past the end of the list). -/
inductive BusError
  | unexpectedSync
  | keyError
  | indexError
  deriving DecidableEq, Repr

/-- State of the `BusProtocol.read` generator between two received bytes.
`seeking` is the `while ord((yield)) != 0x55` loop; `expectAddr` waits for
the address byte; `expectAddrEsc` waits for the escape code of an escaped
address; `inBatch addr left batch values` is inside the channel-reading
loop (`left` bytes still missing from the current batch); `expectFb` waits
for `first_byte_after_cmd`; `dead e` is a generator that has raised `e`
and is finished. -/
inductive BusState
  | seeking
  | expectAddr
  | expectAddrEsc
  | inBatch (addr : Nat) (left : Nat) (batch : List Nat) (values : List Nat)
  | expectFb
  | dead (e : BusError)
  deriving DecidableEq, Repr

/-- Address dispatch of `BusProtocol.read` after the (possibly unescaped)
address is known: the strobe pseudo-address emits `BusStrobeCommand`; an
address equal to the start marker raises `UnexpectedSyncError`; otherwise
`module_lens[addr]` is looked up (`IndexError` past the end).  A length of
zero skips the batch loop entirely and immediately emits an empty
`BusSetChannelsCommand`. -/
def dispatchAddr (lens : List Nat) (a : Nat) : BusState × List BusCommand :=
  if a = 0xfe then (.expectFb, [.strobe])
  else if a = 0x55 then (.dead .unexpectedSync, [])
  else
    match lens.get? a with
    | none => (.dead .indexError, [])
    | some n =>
        if n = 0 then (.expectFb, [.setChannels a []])
        else (.inBatch a n [] [], [])

/-- Completion of one batch of the channel-reading loop: raise
`UnexpectedSyncError` if the batch contains a literal start marker,
otherwise count its escape bytes; zero new escapes ends the loop, runs
the unescape pass and emits the `BusSetChannelsCommand`. -/
def finishBatch (a : Nat) (values batch : List Nat) : BusState × List BusCommand :=
  if 0x55 ∈ batch then (.dead .unexpectedSync, [])
  else
    let e := batch.count 0x54
    let values2 := values ++ batch
    if e = 0 then
      match unescapeRun values2 false with
      | none => (.dead .keyError, [])
      | some u => (.expectFb, [.setChannels a u])
    else (.inBatch a e [] values2, [])

/-- One step of the `BusProtocol.read` generator: the state transition
and the commands yielded when the given byte is sent to it. -/
def busStep (lens : List Nat) : BusState → Nat → BusState × List BusCommand
  | .seeking, b => (if b = 0x55 then .expectAddr else .seeking, [])
  | .expectAddr, b =>
      if b = 0x54 then (.expectAddrEsc, [])
      else if b = 0x55 then (.dead .unexpectedSync, [])
      else dispatchAddr lens b
  | .expectAddrEsc, c =>
      match UNESCAPE c with
      | none => (.dead .keyError, [])
      | some a => dispatchAddr lens a
  | .inBatch a left batch values, b =>
      if left ≤ 1 then finishBatch a values (batch ++ [b])
      else (.inBatch a (left - 1) (batch ++ [b]) values, [])
  | .expectFb, b => (if b = 0x55 then .expectAddr else .seeking, [])
  | .dead e, _ => (.dead e, [])

/-- Run the `BusProtocol.read` generator over a finite byte list,
returning the final state and all commands yielded. -/
def busRun (lens : List Nat) : BusState → List Nat → BusState × List BusCommand
  | s, [] => (s, [])
  | s, b :: rest =>
      ((busRun lens (busStep lens s b).1 rest).1,
       (busStep lens s b).2 ++ (busRun lens (busStep lens s b).1 rest).2)

/-- The error a dead generator state has raised, if any. -/
def deadError : BusState → Option BusError
  | .dead e => some e
  | _ => none

/-- Whole-session decode with `BusProtocol.read`: the generator starts
with `first_byte_after_cmd = 0x00`, i.e. in the seeking loop. -/
def busRead (lens : List Nat) (stream : List Nat) : List BusCommand × Option BusError :=
  ((busRun lens .seeking stream).2, deadError (busRun lens .seeking stream).1)

/-! ## Escaped wire form

The bus decoder's `UNESCAPE` table fixes what a valid escaped payload
looks like: a literal `0x54` travels as `0x54, 0x00`, a literal `0x55` as
`0x54, 0x01`, and every other byte travels unchanged.  `esc` is that wire
form (the right inverse of the decoder's unescape pass); the claims about
"valid escaped payloads" quantify over `esc P`. -/

/-- Wire form of a single payload byte under the escaping scheme of
`BusProtocol.UNESCAPE`. -/
def escByte (b : Nat) : List Nat :=
  if b = 0x54 then [0x54, 0x00]
  else if b = 0x55 then [0x54, 0x01]
  else [b]

/-- Wire form of a whole payload. -/
def esc : List Nat → List Nat
  | [] => []
  | b :: bs => escByte b ++ esc bs

/-! ## Emulator frame decoder (emulator.py, Controller.read_frames) -/

/-- State of the `Controller.read_frames` generator: `ignore` is
`STATE_IGNORE`, `normal buf` is `STATE_NORMAL` with the accumulated
`payload_buf`, `escape buf` is `STATE_ESCAPE`, and `dead` is a generator
that has raised `ProtocolViolation` and is finished. -/
inductive RFState
  | ignore
  | normal (buf : List Nat)
  | escape (buf : List Nat)
  | dead
  deriving DecidableEq, Repr

/-- One step of `Controller.read_frames`: the next state and the frames
yielded on this byte. -/
def rfStep : RFState → Nat → RFState × List (List Nat)
  | .ignore, b => (if b = 0x55 then .normal [] else .ignore, [])
  | .normal buf, b =>
      if b = 0x54 then (.escape buf, [])
      else if b = 0x55 then (.normal [], [buf])
      else (.normal (buf ++ [b]), [])
  | .escape buf, b =>
      if b = 0x00 then (.normal (buf ++ [0x54]), [])
      else if b = 0x01 then (.normal (buf ++ [0x55]), [])
      else (.dead, [])
  | .dead, _ => (.dead, [])

/-- Run `Controller.read_frames` over a finite byte list: final state and
all frames yielded.  The source starts in `STATE_IGNORE`; a partial frame
left in the buffer at end of stream is never yielded. -/
def rfRun : RFState → List Nat → RFState × List (List Nat)
  | s, [] => (s, [])
  | s, b :: rest =>
      ((rfRun (rfStep s b).1 rest).1,
       (rfStep s b).2 ++ (rfRun (rfStep s b).1 rest).2)

/-- What `Controller.run` does with one decoded frame: `[0xfe]` strobes
the model, a non-empty frame writes its tail into the channels of the
module named by its head, and an empty frame raises `ProtocolViolation`. -/
inductive FrameAction
  | strobe
  | setValues (addr : Nat) (vals : List Nat)
  | violation
  deriving DecidableEq, Repr

/-- Model of the frame dispatch in `Controller.run`. -/
def handleFrame (frame : List Nat) : FrameAction :=
  if frame = [0xfe] then .strobe
  else
    match frame with
    | a :: vals => .setValues a vals
    | [] => .violation

/-! ## Emulator LED model (emulator.py, Model) -/

/-- Model of the emulator's `Model` class: a front and a back buffer of
per-module, per-led `[r, g, b]` triples.  The `observers` list holds GUI
callbacks and is not part of the buffer state modelled here. -/
structure EmuModel where
  modules : Nat
  leds_per_module : Nat
  back_buffer : List (List (List Nat))
  front_buffer : List (List (List Nat))
  deriving DecidableEq, Repr

/-- Model of `Model.__init__`: both buffers start as `modules` rows of
`leds_per_module` zero triples, the front buffer a (deep) copy of the
back buffer. -/
def EmuModel.init (modules leds : Nat) : EmuModel :=
  { modules := modules
    leds_per_module := leds
    back_buffer := List.replicate modules (List.replicate leds [0, 0, 0])
    front_buffer := List.replicate modules (List.replicate leds [0, 0, 0]) }

/-- Model of `Model.set_value`: write `value` into
`back_buffer[module][channel // 3][channel % 3]`; an `IndexError` (either
index out of range) is swallowed by the `except IndexError: pass`, leaving
the state unchanged. -/
def EmuModel.set_value (m : EmuModel) (module channel value : Nat) : EmuModel :=
  match m.back_buffer.get? module with
  | none => m
  | some row =>
      match row.get? (channel / 3) with
      | none => m
      | some led =>
          { m with back_buffer :=
              m.back_buffer.set module (row.set (channel / 3) (led.set (channel % 3) value)) }

/-- Model of `Model.strobe`: the front buffer becomes a deep copy of the
back buffer (value copy in this embedding); the back buffer is untouched.
The observer callbacks it then invokes are GUI side effects outside this
model. -/
def EmuModel.strobe (m : EmuModel) : EmuModel :=
  { m with front_buffer := m.back_buffer }

/-! ## Helper lemmas about the decoders -/

theorem rfRun_append (s : RFState) (a b : List Nat) :
    rfRun s (a ++ b) =
      ((rfRun (rfRun s a).1 b).1, (rfRun s a).2 ++ (rfRun (rfRun s a).1 b).2) := by
  induction a generalizing s with
  | nil => simp [rfRun]
  | cons x xs ih => simp [rfRun, ih]

theorem rfRun_dead (l : List Nat) : rfRun .dead l = (.dead, []) := by
  induction l with
  | nil => rfl
  | cons b rest ih => simp [rfRun, rfStep, ih]

theorem busRun_dead (lens : List Nat) (e : BusError) (l : List Nat) :
    busRun lens (.dead e) l = (.dead e, []) := by
  induction l with
  | nil => rfl
  | cons b rest ih => simp [busRun, busStep, ih]

theorem rfRun_seek (A : List Nat) (hA : 0x55 ∉ A) : rfRun .ignore A = (.ignore, []) := by
  induction A with
  | nil => rfl
  | cons x xs ih =>
      have hx : ¬ x = 0x55 := fun h => hA (by simp [h])
      have hxs : 0x55 ∉ xs := fun h => hA (List.mem_cons_of_mem _ h)
      simp [rfRun, rfStep, hx, ih hxs]

theorem rfRun_escBody (P : List Nat) (buf : List Nat) :
    rfRun (.normal buf) (esc P) = (.normal (buf ++ P), []) := by
  induction P generalizing buf with
  | nil => simp [esc, rfRun]
  | cons b bs ih =>
      by_cases h54 : b = 0x54
      · simp [esc, escByte, h54, rfRun, rfStep, ih]
      · by_cases h55 : b = 0x55
        · simp [esc, escByte, h54, h55, rfRun, rfStep, ih]
        · simp [esc, escByte, h54, h55, rfRun, rfStep, ih]

theorem start_not_mem_esc (P : List Nat) : 0x55 ∉ esc P := by
  induction P with
  | nil => simp [esc]
  | cons b bs ih =>
      by_cases h54 : b = 0x54
      · simp [esc, escByte, h54, ih]
      · by_cases h55 : b = 0x55
        · simp [esc, escByte, h54, h55, ih]
        · simp [esc, escByte, h54, h55, ih]
          omega

theorem escByte_length_pos (b : Nat) : 1 ≤ (escByte b).length := by
  unfold escByte
  split
  · simp
  · split <;> simp

theorem esc_length_ge (P : List Nat) : P.length ≤ (esc P).length := by
  induction P with
  | nil => simp [esc]
  | cons b bs ih =>
      have h := escByte_length_pos b
      simp only [esc, List.length_append, List.length_cons]
      omega

theorem esc_length_eq_count (P : List Nat) :
    (esc P).length = P.length + (esc P).count 0x54 := by
  induction P with
  | nil => simp [esc]
  | cons b bs ih =>
      by_cases h54 : b = 0x54
      · simp [esc, escByte, h54, List.count_cons, ih]
        omega
      · by_cases h55 : b = 0x55
        · simp [esc, escByte, h54, h55, List.count_cons, ih]
          omega
        · simp [esc, escByte, h54, h55, List.count_cons, ih]
          omega

theorem unescapeRun_esc (P : List Nat) : unescapeRun (esc P) false = some P := by
  induction P with
  | nil => rfl
  | cons b bs ih =>
      by_cases h54 : b = 0x54
      · simp [esc, escByte, h54, unescapeRun, UNESCAPE, ih]
      · by_cases h55 : b = 0x55
        · simp [esc, escByte, h54, h55, unescapeRun, UNESCAPE, ih]
        · simp [esc, escByte, h54, h55, unescapeRun, UNESCAPE, ih]

theorem escByte_escape : escByte 0x54 = [0x54, 0x00] := rfl

theorem escByte_start : escByte 0x55 = [0x54, 0x01] := rfl

theorem escByte_other (b : Nat) (h54 : b ≠ 0x54) (h55 : b ≠ 0x55) : escByte b = [b] := by
  simp [escByte, h54, h55]

theorem takeEsc : ∀ (P : List Nat) (m : Nat), m ≤ P.length →
    ∃ pend2 P2, (pend2 = [] ∨ pend2 = [0x00] ∨ pend2 = [0x01]) ∧
      (esc P).drop m = pend2 ++ esc P2 ∧
      ((esc P).take m).count 0x54 + (P.length - m) = pend2.length + P2.length := by
  intro P
  induction P with
  | nil =>
      intro m hm
      have hm0 : m = 0 := by simpa using hm
      subst hm0
      exact ⟨[], [], Or.inl rfl, by simp [esc], by simp [esc]⟩
  | cons b bs ih =>
      intro m hm
      rcases m with _ | k
      · exact ⟨[], b :: bs, Or.inl rfl, by simp, by simp⟩
      · by_cases h54 : b = 0x54
        · subst h54
          have hesc : esc (0x54 :: bs) = 0x54 :: 0x00 :: esc bs := by
            rw [esc, escByte_escape]
            rfl
          rcases k with _ | k2
          · refine ⟨[0x00], bs, Or.inr (Or.inl rfl), ?_, ?_⟩
            · simp [hesc]
            · simp [hesc, List.count_cons]
          · have hk : k2 ≤ bs.length := by
              simp only [List.length_cons] at hm
              omega
            obtain ⟨pend2, P2, hOK, hdrop, hcnt⟩ := ih k2 hk
            refine ⟨pend2, P2, hOK, ?_, ?_⟩
            · simpa [hesc] using hdrop
            · simp only [List.length_cons] at hm
              simp [hesc, List.count_cons] at hcnt ⊢
              omega
        · by_cases h55 : b = 0x55
          · subst h55
            have hesc : esc (0x55 :: bs) = 0x54 :: 0x01 :: esc bs := by
              rw [esc, escByte_start]
              rfl
            rcases k with _ | k2
            · refine ⟨[0x01], bs, Or.inr (Or.inr rfl), ?_, ?_⟩
              · simp [hesc]
              · simp [hesc, List.count_cons]
            · have hk : k2 ≤ bs.length := by
                simp only [List.length_cons] at hm
                omega
              obtain ⟨pend2, P2, hOK, hdrop, hcnt⟩ := ih k2 hk
              refine ⟨pend2, P2, hOK, ?_, ?_⟩
              · simpa [hesc] using hdrop
              · simp only [List.length_cons] at hm
                simp [hesc, List.count_cons] at hcnt ⊢
                omega
          · have hesc : esc (b :: bs) = b :: esc bs := by
              rw [esc, escByte_other b h54 h55]
              rfl
            have hk : k ≤ bs.length := by
              simp only [List.length_cons] at hm
              omega
            obtain ⟨pend2, P2, hOK, hdrop, hcnt⟩ := ih k hk
            refine ⟨pend2, P2, hOK, ?_, ?_⟩
            · simpa [hesc] using hdrop
            · simp only [List.length_cons] at hm
              simp [hesc, List.count_cons, h54] at hcnt ⊢
              omega

theorem readBatches_escFix :
    ∀ (n : Nat) (pend P rest acc : List Nat),
      pend.length + (esc P).length = n →
      (pend = [] ∨ pend = [0x00] ∨ pend = [0x01]) →
      readBatches (pend ++ (esc P ++ rest)) (pend.length + P.length) acc =
        .ok (acc ++ (pend ++ esc P)) rest := by
  intro n
  induction n using Nat.strong_induction_on with
  | _ n IH =>
    intro pend P rest acc hn hp
    by_cases h0 : pend.length + P.length = 0
    · have hpend : pend = [] := by
        rcases hp with h | h | h
        · exact h
        · subst h
          simp at h0
        · subst h
          simp at h0
      have hP : P = [] := List.eq_nil_of_length_eq_zero (by omega)
      subst hpend
      subst hP
      rw [readBatches]
      simp [esc]
    · have hlenP := esc_length_ge P
      have hnotlt : ¬ (pend ++ (esc P ++ rest)).length < pend.length + P.length := by
        simp only [List.length_append]
        omega
      have htake : (pend ++ (esc P ++ rest)).take (pend.length + P.length) =
          pend ++ (esc P).take P.length := by
        rw [List.take_append_eq_append_take, List.take_of_length_le (by omega)]
        have h1 : pend.length + P.length - pend.length = P.length := by omega
        rw [h1, List.take_append_eq_append_take]
        have h2 : P.length - (esc P).length = 0 := by omega
        rw [h2]
        simp
      have hdropS : (pend ++ (esc P ++ rest)).drop (pend.length + P.length) =
          (esc P).drop P.length ++ rest := by
        rw [List.drop_append_eq_append_drop, List.drop_eq_nil_of_le (by omega)]
        have h1 : pend.length + P.length - pend.length = P.length := by omega
        rw [h1, List.drop_append_eq_append_drop]
        have h2 : P.length - (esc P).length = 0 := by omega
        rw [h2]
        simp
      obtain ⟨pend2, P2, hOK, hdrop, hcnt⟩ := takeEsc P P.length le_rfl
      have hmem : 0x55 ∉ (pend ++ (esc P ++ rest)).take (pend.length + P.length) := by
        rw [htake]
        intro hmem
        rcases List.mem_append.mp hmem with h | h
        · rcases hp with h' | h' | h' <;> subst h' <;> simp at h
        · exact start_not_mem_esc P (List.take_subset _ _ h)
      have hcount : ((pend ++ (esc P ++ rest)).take (pend.length + P.length)).count 0x54 =
          pend2.length + P2.length := by
        rw [htake, List.count_append]
        have hpendcnt : pend.count 0x54 = 0 := by
          rcases hp with h | h | h <;> subst h <;> decide
        omega
      rw [readBatches]
      rw [dif_neg h0, dif_neg hnotlt, if_neg hmem, hcount, hdropS, hdrop]
      have hlt : pend2.length + (esc P2).length < n := by
        have hlen2 := congrArg List.length hdrop
        simp only [List.length_drop, List.length_append] at hlen2
        omega
      have hrec := IH _ hlt pend2 P2 rest (acc ++ (pend ++ (esc P).take P.length)) rfl hOK
      rw [htake]
      rw [List.append_assoc pend2 (esc P2) rest]
      rw [hrec]
      have hsplit : (esc P).take P.length ++ (pend2 ++ esc P2) = esc P := by
        rw [← hdrop]
        exact List.take_append_drop _ _
      have hfinal : acc ++ (pend ++ (esc P).take P.length) ++ (pend2 ++ esc P2) =
          acc ++ (pend ++ esc P) := by
        conv_rhs => rw [← hsplit]
        simp [List.append_assoc]
      rw [hfinal]

/-! ## Claim theorems -/

/-- Claim C1 (code_bug evidence): the round-trip `decode(encode(command)) ==
command` fails on the code.  `NetProtocol.read` has no case for the
`HighResSetLedCommand` opcode `0x03`, so decoding the encoding of any
high-res command raises `ProtocolError`; and `BusSetChannelsCommand.to_str`
emits only the start marker for a frame of non-reserved bytes (dropping
the address and every channel byte) and raises `AttributeError` as soon as
a byte needs escaping, so `decode(encode(·))` cannot reproduce any
SetChannels command either. -/
theorem c1_roundtrip_fails :
    netRead (highResSetLedToStr 0 (0, 0, 0, 0)) = ([], some .protocolError) ∧
    busSetChannelsToStr 0 [1] = some [0x55] ∧
    busSetChannelsToStr 0 [0x54] = none := by
  decide

/-- Claim C2 (counterexample): a wire-format error does terminate the
decode session.  In `Controller.read_frames`, the invalid escape sequence
`0x54, 0x07` raises `ProtocolViolation` and the following well-formed
strobe frame `0x55, 0xfe, 0x55` is never decoded (while the same frame
alone decodes fine); in `BusProtocol.read`, a literal start marker inside
a length-aware raw run raises `UnexpectedSyncError` and the following
well-formed strobe frame is never decoded (while it alone decodes fine). -/
theorem c2_cex :
    rfRun .ignore [0x55, 0x54, 0x07, 0x55, 0xfe, 0x55] = (.dead, []) ∧
    rfRun .ignore [0x55, 0xfe, 0x55] = (.normal [], [[0xfe]]) ∧
    busRead [1] [0x55, 0x00, 0x55, 0x07, 0x55, 0xfe] = ([], some .unexpectedSync) ∧
    busRead [1] [0x55, 0xfe] = ([.strobe], none) := by
  decide

/-- Claim C2 (amended): a wire-format error terminates the decode
session.  Once `Controller.read_frames` has raised `ProtocolViolation`
(reached the dead state), feeding any further bytes decodes no further
frames; likewise a `BusProtocol.read` generator that has raised an
exception yields no further commands on any further input. -/
theorem c2_amended :
    (∀ pre rest : List Nat, (rfRun .ignore pre).1 = .dead →
        rfRun .ignore (pre ++ rest) = (.dead, (rfRun .ignore pre).2)) ∧
    (∀ (lens : List Nat) (e : BusError) (rest : List Nat),
        busRun lens (.dead e) rest = (.dead e, [])) := by
  constructor
  · intro pre rest h
    rw [rfRun_append, h, rfRun_dead]
    simp
  · exact busRun_dead

/-- Claim C2 (witness): after the invalid escape `0x55, 0x54, 0x07`, the
following well-formed strobe frame is not decoded. -/
theorem c2_witness :
    rfRun .ignore ([0x55, 0x54, 0x07] ++ [0x55, 0xfe, 0x55]) = (.dead, []) := by
  rw [c2_amended.1 [0x55, 0x54, 0x07] [0x55, 0xfe, 0x55] (by decide)]
  decide

/-- Claim C3 (code_bug evidence): the encoder does not write every byte of
`address ++ payload` after the start marker.  For the frame with address 0
and payload `[1]` (no reserved bytes at all), `BusSetChannelsCommand.to_str`
returns only the start marker, omitting both bytes; and for a payload
containing the reserved byte `0x54` it raises `AttributeError` (calling
`append` on a `str`) instead of writing the escape pair. -/
theorem c3_encoder_drops_bytes :
    busSetChannelsToStr 0 [1] = some [0x55] ∧
    busSetChannelsToStr 0 [1] ≠ some [0x55, 0x00, 0x01] ∧
    busSetChannelsToStr 0 [0x54] = none := by
  decide

/-- Claim C4 (counterexample): with garbage `A = [0x54, 0x55]` (which
contains no unescaped start byte: its `0x55` is preceded by `0x54`) and
the two valid frame bodies `[0xfe]`, the stream
`A, 0x55, [0xfe], 0x55, [0xfe]` does not decode to the two frames
`[[0xfe], [0xfe]]`: the seek state treats the escaped `0x55` in `A` as a
frame start, so an empty frame is emitted, and the second body is still
sitting in the buffer at end of stream, so it is never emitted. -/
theorem c4_cex :
    rfRun .ignore [0x54, 0x55, 0x55, 0xfe, 0x55, 0xfe] =
      (.normal [0xfe], [[], [0xfe]]) ∧
    ([[], [0xfe]] : List (List Nat)) ≠ [[0xfe], [0xfe]] := by
  decide

/-- Claim C4 (amended): for every byte sequence
`A, 0x55, esc P1, 0x55, esc P2, 0x55` — where the garbage `A` contains no
`0x55` byte at all (the seek state does not interpret escapes), `esc P1`
and `esc P2` are valid escaped frame bodies, and a trailing start marker
delimits the second body (without it that body would be discarded as a
partial frame at end of stream) — `Controller.read_frames` emits exactly
the two frames `P1` and `P2` (unescaped) and nothing for `A`. -/
theorem c4_amended (A P1 P2 : List Nat) (hA : 0x55 ∉ A) :
    rfRun .ignore (A ++ 0x55 :: (esc P1 ++ 0x55 :: (esc P2 ++ [0x55]))) =
      (.normal [], [P1, P2]) := by
  rw [rfRun_append, rfRun_seek A hA]
  simp [rfRun, rfRun_append, rfRun_escBody, rfStep]

/-- Claim C4 (witness): a concrete instance of the amended statement,
with garbage `[1, 84]` and bodies escaping `0xfe` and `[0x54, 0x55]`. -/
theorem c4_witness :
    rfRun .ignore ([1, 0x54] ++ 0x55 :: (esc [0xfe] ++ 0x55 :: (esc [0x54, 0x55] ++ [0x55]))) =
      (.normal [], [[0xfe], [0x54, 0x55]]) :=
  c4_amended [1, 0x54] [0xfe] [0x54, 0x55] (by decide)

/-- Claim C5 (counterexample): `SetLedCommand(1, (255, 0, 0, 255)).to_str`
is the seven bytes `0x01, 0x00, 0x01, 0xff, 0x00, 0x00, 0xff` with no
leading start marker, not the claimed eight-byte sequence starting with
`0x55`; and feeding the claimed sequence to `NetProtocol.read` raises
`ProtocolError` on the unknown opcode `0x55` instead of decoding the
command. -/
theorem c5_cex :
    setLedToStr 1 (255, 0, 0, 255) = [0x01, 0x00, 0x01, 0xff, 0x00, 0x00, 0xff] ∧
    setLedToStr 1 (255, 0, 0, 255) ≠ [0x55, 0x01, 0x00, 0x01, 0xff, 0x00, 0x00, 0xff] ∧
    netRead [0x55, 0x01, 0x00, 0x01, 0xff, 0x00, 0x00, 0xff] = ([], some .protocolError) := by
  decide

/-- Claim C5 (amended): encoding `SetLed{led=1, r=255, g=0, b=0, a=255}`
produces exactly `0x01, 0x00, 0x01, 0xff, 0x00, 0x00, 0xff` (no start
marker: the net protocol is unframed), and decoding those seven bytes with
`NetProtocol.read` produces exactly that SetLed command. -/
theorem c5_amended :
    setLedToStr 1 (255, 0, 0, 255) = [0x01, 0x00, 0x01, 0xff, 0x00, 0x00, 0xff] ∧
    netRead [0x01, 0x00, 0x01, 0xff, 0x00, 0x00, 0xff] =
      ([.setLed 1 (255, 0, 0, 255)], none) := by
  decide

/-- Claim C6: the fixed-point escape-extension loop of `BusProtocol.read`
is correct for every valid escaped payload.  For every payload `P` (of any
length, with escapes anywhere including the end and chained runs), running
the batch loop with `expected = P.length` on `esc P` followed by any
remainder consumes exactly `esc P` — i.e. exactly one extra raw byte per
escape byte, since `(esc P).length = P.length + (count of escape bytes)` —
leaves the remainder unread, and the subsequent unescape pass pairs every
escape byte with its escaped-value byte, recovering `P` exactly. -/
theorem c6_escape_fixed_point (P rest : List Nat) :
    readBatches (esc P ++ rest) P.length [] = .ok (esc P) rest ∧
    (esc P).length = P.length + (esc P).count 0x54 ∧
    unescapeRun (esc P) false = some P := by
  refine ⟨?_, esc_length_eq_count P, unescapeRun_esc P⟩
  have h := readBatches_escFix (([] : List Nat).length + (esc P).length)
    [] P rest [] rfl (Or.inl rfl)
  simpa using h

/-- Claim C7 (counterexample): a 17-byte token is not rejected.  The
`AuthenticateCommand` constructor stores it unchanged (`ljust` pads only
shorter strings and there is no `ConfigurationError` anywhere in the
code), and `to_str` happily emits 18 bytes — an opcode plus a 17-byte
token field rather than the claimed exactly-16-byte field. -/
theorem c7_cex :
    authInitToken (List.replicate 17 7) = List.replicate 17 7 ∧
    (authToStr (List.replicate 17 7)).length = 18 ∧
    (18 : Nat) ≠ 17 := by
  decide

/-- Claim C7 (amended): the token stored by `AuthenticateCommand` is the
caller's token zero-padded on the right to 16 bytes when shorter, and the
caller's token unchanged when 16 bytes or longer — a longer token is not
rejected, so the encoded command carries `1 + max 16 len` bytes rather
than always 17. -/
theorem c7_amended (token : List Nat) :
    (authToStr token).length = 1 + max 16 token.length ∧
    (authInitToken token).take token.length = token ∧
    (authInitToken token).drop token.length = List.replicate (16 - token.length) 0 ∧
    (16 ≤ token.length → authInitToken token = token) := by
  refine ⟨?_, ?_, ?_, ?_⟩
  · simp [authToStr, authInitToken]
    omega
  · simp [authInitToken]
  · simp [authInitToken]
  · intro h
    simp [authInitToken, Nat.sub_eq_zero_of_le h]

/-- Claim C7 (witness): the amended statement applied to a 17-byte token,
which passes through the constructor unchanged. -/
theorem c7_witness :
    authInitToken (List.replicate 17 7) = List.replicate 17 7 :=
  (c7_amended (List.replicate 17 7)).2.2.2 (by decide)

/-- Claim C8 (counterexample): a frame whose address has no
`ModuleLengths` entry kills the whole decode session instead of being
dropped and resumed past.  With an empty lengths list, the frame with
address 5 raises `IndexError` and the following well-formed strobe frame
is never decoded, although that frame alone decodes fine. -/
theorem c8_cex :
    busRead [] [0x55, 0x05, 0x55, 0xfe] = ([], some .indexError) ∧
    busRead [] [0x55, 0xfe] = ([.strobe], none) := by
  decide

/-- Claim C8 (amended): for every frame whose address byte (other than
the strobe address `0xfe`, the start marker `0x55`, and the escape byte
`0x54`) has no entry in the `module_lens` list, `BusProtocol.read` raises
an unhandled `IndexError`: the generator terminates, and no later frame
of the stream — well-formed or not — is decoded. -/
theorem c8_amended (lens : List Nat) (a : Nat) (rest : List Nat)
    (hfe : a ≠ 0xfe) (h55 : a ≠ 0x55) (h54 : a ≠ 0x54) (hlen : lens.length ≤ a) :
    busRead lens (0x55 :: a :: rest) = ([], some .indexError) := by
  have hget : lens.get? a = none := List.get?_eq_none.mpr hlen
  have hget2 : lens[a]? = none := by
    rw [← List.get?_eq_getElem?]
    exact hget
  simp [busRead, busRun, busStep, dispatchAddr, hfe, h55, h54, hget, hget2,
    busRun_dead, deadError]

/-- Claim C8 (witness): the amended statement at address 5 with an empty
lengths list, followed by a well-formed strobe frame that is lost. -/
theorem c8_witness :
    busRead [] (0x55 :: 5 :: [0x55, 0xfe]) = ([], some .indexError) :=
  c8_amended [] 5 [0x55, 0xfe] (by decide) (by decide) (by decide) (by decide)

/-- Claim C9: in `Controller.read_frames`, a start byte in the in-frame
state always emits the accumulated buffer, even when it is empty: after
any prefix that leaves the decoder in the in-frame state with buffer
`buf`, two consecutive start bytes emit `buf` and then a zero-length
frame, and `Controller.run` treats a zero-length frame as a
`ProtocolViolation`. -/
theorem c9_empty_frame_violation (pre buf : List Nat) (fs : List (List Nat))
    (rest : List Nat) (h : rfRun .ignore pre = (.normal buf, fs)) :
    (rfRun .ignore (pre ++ 0x55 :: 0x55 :: rest)).2 =
      fs ++ buf :: [] :: (rfRun (.normal []) rest).2 ∧
    handleFrame [] = .violation := by
  constructor
  · rw [rfRun_append, h]
    simp [rfRun, rfStep]
  · decide

/-- Claim C9 (witness): after the prefix `[0x55]` the decoder is in-frame
with an empty buffer; two further start bytes emit two empty frames, and
the empty frame is a `ProtocolViolation` for the consumer. -/
theorem c9_witness :
    (rfRun .ignore ([0x55] ++ 0x55 :: 0x55 :: [])).2 =
      [] ++ [] :: [] :: (rfRun (.normal []) []).2 ∧
    handleFrame [] = .violation :=
  c9_empty_frame_violation [0x55] [] [] [] (by decide)

/-- Claim C10: `Model.set_value` mutates only the back buffer — the front
buffer (and the module/led geometry) is unchanged by every call — and
`Model.strobe` is the only operation that changes the front buffer, making
it a copy of the back buffer while leaving the back buffer itself
unchanged. -/
theorem c10_double_buffer (m : EmuModel) (module channel value : Nat) :
    (m.set_value module channel value).front_buffer = m.front_buffer ∧
    (m.set_value module channel value).modules = m.modules ∧
    (m.set_value module channel value).leds_per_module = m.leds_per_module ∧
    m.strobe.front_buffer = m.back_buffer ∧
    m.strobe.back_buffer = m.back_buffer := by
  unfold EmuModel.set_value EmuModel.strobe
  refine ⟨?_, ?_, ?_, rfl, rfl⟩ <;>
    (split
     · rfl
     · split <;> rfl)
